import Mathlib

/-!
Verification of the vancomycin pharmacokinetics engine (`vanco_pk.py`,
`creatinine.py`, `dosing.py`) against its natural-language specification.

The Python sources are shallowly embedded over exact rationals: every pure
numeric routine becomes a Lean function on `ℚ` (scientific literals such as
`88.4` denote the exact rational, mirroring the decimal constants in the
source).  Routines that genuinely live on the reals (`np.log`, `np.exp`,
`np.sqrt`) are embedded over `ℝ`.  Python `datetime` values are modelled as
rational "hours since epoch", so `(t - sim_start).total_seconds() / 3600`
becomes plain subtraction.  A Python run-time failure (`ZeroDivisionError`,
indexing an empty grid) is modelled by returning `Option.none`.

Floating-point NaN has no counterpart in `ℚ`; the one place the source
handles NaN explicitly (the per-step elimination-rate clamp in
`VancoPK.run`, lines 144-148 of `vanco_pk.py`) is embedded on
`PyFloat := Option ℚ`, where `none` plays the role of NaN and the Python
comparison semantics of `min`/`max` (comparisons with NaN are false) are
reproduced exactly.
-/

/-! ### Python float values with NaN (`PyFloat`) -/

/-- A Python float value: `none` models NaN, `some x` a genuine number. -/
abbrev PyFloat := Option ℚ

/-- Python `<` on floats: any comparison involving NaN is `False`. -/
def pyLt (a b : PyFloat) : Bool :=
  match a, b with
  | some x, some y => decide (x < y)
  | _, _ => false

/-- Python builtin `min(a, b)`: returns `b` if `b < a`, else `a`
(so a NaN first argument survives). -/
def pyMin (a b : PyFloat) : PyFloat := if pyLt b a then b else a

/-- Python builtin `max(a, b)`: returns `b` if `a < b`, else `a`
(so a NaN first argument survives). -/
def pyMax (a b : PyFloat) : PyFloat := if pyLt a b then b else a

/-- Lines 144-148 of `vanco_pk.py`: clamp the multiplied elimination rate
with `max(min(active_ke, 0.17), 0.005)` and then replace a NaN result by
the fallback `0.05`.  Under Python comparison semantics a NaN input passes
through `min`/`max` unchanged and is caught by the `np.isnan` test. -/
def clampKeStep (x : PyFloat) : ℚ :=
  match pyMax (pyMin x (some 0.17)) (some 0.005) with
  | none => 0.05
  | some v => v

/-! ### Patient parameter mapper (`vanco_pk.py`, `pk_params_from_patient`) -/

/-- Biological sex as used by the source's string tests
(`sex.lower().startswith("f")` / `("m")`). -/
inductive Sex where
  | male : Sex
  | female : Sex
deriving DecidableEq

/-- The `patient_info` dictionary consumed by the engine. -/
structure Patient where
  age : ℚ
  sex : Sex
  weight : ℚ
  height : ℚ

/-- Result record of `pk_params_from_patient` (its returned dict). -/
structure PkParams where
  ke : ℚ
  vd : ℚ
  crcl : ℚ

/-- Lines 48-75 of `vanco_pk.py`.  The creatinine function returns a pair;
the source takes component 0 and floors it at 10 µmol/L (the `cr is None or
cr <= 0` fallback on lines 54-55 is unreachable after that floor). -/
def pk_params_from_patient (age : ℚ) (sex : Sex) (weight height : ℚ)
    (cr_func : ℚ → ℚ × Option ℚ) (when : ℚ) : PkParams :=
  let cr := max (cr_func when).1 10
  let crcl0 := (140 - age) * 88.4 / cr * 0.9
  let crcl := if sex = Sex.female then crcl0 * 0.85 else crcl0
  let ke0 := 0.00083 * crcl + 0.0044
  let ke := max (min ke0 (0.693 / 5.5)) (0.693 / 120)
  let ibw := if sex = Sex.male then 50 + 0.9 * (height - 152)
             else 45.5 + 0.9 * (height - 152)
  let weight_for_vd := if weight > 1.25 * ibw then ibw + 0.4 * (weight - ibw) else weight
  { ke := ke, vd := 0.8 * weight_for_vd, crcl := crcl }

/-! ### Creatinine model (`creatinine.py`) -/

/-- Lines 5-39 of `creatinine.py` (`calculate_kgfr`).  All arithmetic is
rational; the `np.isnan` guard on line 37 cannot fire in exact arithmetic,
so only the `kgfr < 0.1` clamp remains. -/
def calculate_kgfr (cr1 cr2 delta_t_hours weight height age : ℚ) (sex : Sex) : ℚ :=
  let k_sex : ℚ := if sex = Sex.female then 0.85 else 1
  let baseline_cl := (140 - age) * 88.4 / cr1 * k_sex * 0.9
  let ibw := if sex = Sex.male then 50 + 0.9 * (height - 152)
             else 45.5 + 0.9 * (height - 152)
  let weight_for_vd := if weight > 1.25 * ibw then ibw + 0.4 * (weight - ibw) else weight
  let v_dist := 0.6 * weight_for_vd
  let production_rate := baseline_cl * 0.06 * cr1
  if delta_t_hours ≤ 0 ∨ production_rate ≤ 0 then baseline_cl
  else
    let kgfr := baseline_cl * (1 - (v_dist * (cr2 - cr1)) / (production_rate * delta_t_hours))
    if kgfr < 0.1 then 0.1 else kgfr

/-- Stable insertion of a timestamped point into a list sorted by time,
used to model Python's `sorted(..., key=lambda x: x[0])`. -/
def insertByTime (p : ℚ × ℚ) : List (ℚ × ℚ) → List (ℚ × ℚ)
  | [] => [p]
  | q :: rest => if p.1 < q.1 then p :: q :: rest else q :: insertByTime p rest

/-- Sort a list of timestamped points by timestamp (insertion sort). -/
def sortByTime (l : List (ℚ × ℚ)) : List (ℚ × ℚ) := l.foldr insertByTime []

/-- Duplicate removal for timestamped points (Python's `list(set(...))`).
Because duplicates are identical pairs, which occurrence survives is
immaterial once the result is sorted by time. -/
def dedupPairs : List (ℚ × ℚ) → List (ℚ × ℚ)
  | [] => []
  | p :: rest => if p ∈ rest then dedupPairs rest else p :: dedupPairs rest

/-- Line 43 of `creatinine.py`: `sorted(list(set(cr_data)), key=lambda x: x[0])`
— drop duplicate pairs, then sort by timestamp. -/
def processCrData (crData : List (ℚ × ℚ)) : List (ℚ × ℚ) :=
  sortByTime (dedupPairs crData)

/-- `scipy.interpolate.interp1d(..., kind='linear', fill_value="extrapolate")`
applied to the timestamps/values of a point list: linear interpolation on
each segment, extrapolating with the first segment before the range and with
the last segment after it. -/
def interp_extrap (x : ℚ) : List (ℚ × ℚ) → ℚ
  | [] => 0
  | [(_, v)] => v
  | (t1, v1) :: (t2, v2) :: rest =>
    if x ≤ t2 ∨ rest = [] then v1 + (v2 - v1) * (x - t1) / (t2 - t1)
    else interp_extrap x ((t2, v2) :: rest)

/-- Lines 74-83 of `creatinine.py`: pick the index of the measured interval
bracketing the query time (scanning consecutive pairs, defaulting to 0). -/
def scanBracket : List ℚ → ℚ → ℕ → ℕ
  | t1 :: t2 :: rest, t, i => if t1 ≤ t ∧ t < t2 then i else scanBracket (t2 :: rest) t (i + 1)
  | _, _, _ => 0

/-- Lines 74-83 of `creatinine.py`: interval selection for the kGFR slope
(`idx = 0` before the first timestamp, the most recent interval at/after the
last, otherwise the bracketing interval). -/
def bracketIdx (times : List ℚ) (t : ℚ) : ℕ :=
  if t < times.getD 0 0 then 0
  else if times.getD (times.length - 1) 0 ≤ t then times.length - 2
  else scanBracket times t 0

/-- Lines 41-95 of `creatinine.py` (`build_creatinine_function`).  Timestamps
are rational hours; `future_cr` is accepted and ignored exactly as in the
source (the parameter is never read).  The branch guarding non-`datetime`
query values disappears in a typed embedding.  Note that only the
multi-point interpolation branch applies the `max(10.0, ...)` floor. -/
def build_creatinine_function (crData : List (ℚ × ℚ)) (future_cr : Option ℚ)
    (modified_factor : ℚ) (patient_params : Option Patient) : ℚ → ℚ × Option ℚ :=
  let pts := processCrData crData
  if modified_factor ≠ 1 then
    fun _ => ((pts.getD 0 (0, 0)).2 * modified_factor, none)
  else
    let times := pts.map Prod.fst
    let values := pts.map Prod.snd
    if pts.length < 2 then fun _ => (values.getD 0 0, none)
    else fun t =>
      let current_val := max 10 (interp_extrap t pts)
      match patient_params with
      | none => (current_val, none)
      | some p =>
        let idx := bracketIdx times t
        let dt_hours := times.getD (idx + 1) 0 - times.getD idx 0
        (current_val,
         some (calculate_kgfr (values.getD idx 0) (values.getD (idx + 1) 0) dt_hours
                p.weight p.height p.age p.sex))

/-! ### Dose schedule builders (`dosing.py`) -/

/-- Fixed infusion pump rate, 1000 mg/hour (`vanco_pk.py` line 6). -/
def INFUSION_RATE : ℚ := 1000

/-- Lines 8-22 of `dosing.py`: pair amounts and times positionally
(`zip` truncates to the shorter list, as in Python) and convert each time
to hours since the simulation start. -/
def build_manual_doses (dose_list : List ℚ) (time_list : List ℚ) (sim_start : ℚ) :
    List (ℚ × ℚ) :=
  (dose_list.zip time_list).map (fun p => (p.2 - sim_start, p.1))

/-- Lines 28-37 of `dosing.py`: repeat a dose every `interval_h` hours from
`start_dt` while the time does not exceed `sim_end`.  The closed form below
enumerates exactly the loop iterations `t = start_dt + k * interval_h ≤
sim_end`.  The source performs no validation whatsoever: a `start_dt` before
`sim_start` simply yields negative time offsets.  (For `interval_h ≤ 0` the
Python loop does not terminate; the model returns `[]` there and every
theorem about this function assumes a positive interval.) -/
def build_ordered_doses (dose_mg interval_h start_dt sim_start sim_end : ℚ) :
    List (ℚ × ℚ) :=
  if 0 < interval_h ∧ start_dt ≤ sim_end then
    (List.range ((⌊(sim_end - start_dt) / interval_h⌋).toNat + 1)).map
      (fun k : ℕ => (start_dt + (k : ℚ) * interval_h - sim_start, dose_mg))
  else []

/-! ### PK simulation engine (`vanco_pk.py`, `VancoPK.run`) -/

/-- Lines 157-159 / 215-217 of `vanco_pk.py`: a dose `(t_d, amt)` is active
at time `t` when `t_d <= t <= t_d + amt / INFUSION_RATE + 1e-9`. -/
def doseActive (t : ℚ) (d : ℚ × ℚ) : Bool :=
  decide (d.1 ≤ t) && decide (t ≤ d.1 + d.2 / INFUSION_RATE + 1 / 1000000000)

/-- The mutable fields of a `VancoPK` object (`__init__`, lines 78-82). -/
structure VancoPK where
  ke : ℚ
  vd : ℚ
  ke_multiplier : ℚ
  multiplier_sd : ℝ

/-- `VancoPK(ke, vd)`: the constructor defaults `ke_multiplier = 1.0` and
`multiplier_sd = 0.2`. -/
def VancoPK.init (ke vd : ℚ) : VancoPK :=
  { ke := ke, vd := vd, ke_multiplier := 1, multiplier_sd := 0.2 }

/-- Line 95: `t_max = duration_days * 24`. -/
def t_max_of (duration_days : ℚ) : ℚ := duration_days * 24

/-- Line 97: the grid `np.linspace(0, t_max, int(t_max * 12) + 1)` has
`gridN + 1` points, where `gridN = int(t_max * 12)`. -/
def gridN (duration_days : ℚ) : ℕ := (⌊t_max_of duration_days * 12⌋).toNat

/-- Line 98: `dt = t_grid[1] - t_grid[0] = t_max / gridN` (the source
crashes here when the grid has fewer than two points; `VancoPK.run`
returns `none` in that case). -/
def gridDt (duration_days : ℚ) : ℚ := t_max_of duration_days / gridN duration_days

/-- The `i`-th grid time `t_grid[i] = i * dt`. -/
def gridT (duration_days : ℚ) (i : ℕ) : ℚ := i * gridDt duration_days

/-- Line 100: `steps_per_24h = int(24 / dt)`. -/
def steps_per_24h (duration_days : ℚ) : ℕ := (⌊24 / gridDt duration_days⌋).toNat

/-- The arguments of `VancoPK.run` other than the model object itself.
`sim_start` is in rational hours; `cr_func` and `patient_info` are required
(the source dereferences both unconditionally, lines 88-93 and 131-132). -/
structure RunInputs where
  doses : List (ℚ × ℚ)
  duration_days : ℚ
  sim_start : ℚ
  cr_func : ℚ → ℚ × Option ℚ
  patient : Patient

/-- Lines 109-122: the population elimination-rate trajectory
`pop_ke_traj[i]`, recomputed from the patient parameters at every grid
time (the guard `if cr_func and patient_info and sim_start` is always taken
for the required inputs modelled here). -/
def pop_ke_at (a : RunInputs) (i : ℕ) : ℚ :=
  (pk_params_from_patient a.patient.age a.patient.sex a.patient.weight a.patient.height
    a.cr_func (a.sim_start + gridT a.duration_days i)).ke

/-- Line 135: `vd_safe = self.vd if (self.vd and self.vd > 0) else 50.0`. -/
def vd_safe (vd : ℚ) : ℚ := if 0 < vd then vd else 50

/-- Line 132: the kinetic-GFR component returned by the creatinine function
at the `i`-th grid time. -/
def step_kgfr (a : RunInputs) (i : ℕ) : Option ℚ :=
  (a.cr_func (a.sim_start + gridT a.duration_days i)).2

/-- Lines 137-148: the clamped active elimination rate of grid step `i`
(kGFR path when a kinetic GFR is available, population path otherwise,
times the Bayesian multiplier, then the `[0.005, 0.17]` clamp with NaN
fallback of `clampKeStep`). -/
def step_active_ke (a : RunInputs) (vd mult : ℚ) (i : ℕ) : ℚ :=
  let raw := match step_kgfr a i with
    | some g => g * 0.06 / vd_safe vd * mult
    | none => pop_ke_at a i * mult
  clampKeStep (some raw)

/-- Lines 156-161: the infusion input rate of grid step `i`.  The source
scans the dose list and `break`s at the FIRST active dose, setting the rate
to `INFUSION_RATE / vd_safe`; overlapping doses do not accumulate. -/
def step_rate_in (a : RunInputs) (vd : ℚ) (i : ℕ) : ℚ :=
  match a.doses.find? (doseActive (gridT a.duration_days i)) with
  | some _ => INFUSION_RATE / vd_safe vd
  | none => 0

/-- Line 164: the running (unclamped) concentration `curr_c` after the loop
has processed grid steps `0, ..., i-1`:
`curr_c += (rate_in - active_ke * curr_c) * dt`. -/
def curr_c (a : RunInputs) (vd mult : ℚ) : ℕ → ℚ
  | 0 => 0
  | i + 1 =>
    let c := curr_c a vd mult i
    c + (step_rate_in a vd i - step_active_ke a vd mult i * c) * gridDt a.duration_days

/-- Line 165: the stored trajectory value `conc[i] = max(curr_c, 0)` (the
running `curr_c` itself is not clamped). -/
def conc_at (a : RunInputs) (vd mult : ℚ) (i : ℕ) : ℚ :=
  max (curr_c a vd mult (i + 1)) 0

/-- The full stored concentration trajectory `conc`. -/
def conc_list (a : RunInputs) (vd mult : ℚ) : List ℚ :=
  (List.range (gridN a.duration_days + 1)).map (conc_at a vd mult)

/-- Lines 167-173: trailing-24h rectangular AUC.  Python's `conc[-k:]` slice
is the whole list when `k = 0`, hence the inner case split. -/
def auc24_of (a : RunInputs) (vd mult : ℚ) : ℚ :=
  let conc := conc_list a vd mult
  let s := steps_per_24h a.duration_days
  if s ≤ conc.length then
    (if s = 0 then conc.sum else (conc.drop (conc.length - s)).sum) * gridDt a.duration_days
  else conc.sum * gridDt a.duration_days

/-- The active elimination rate of the final loop iteration
(`active_ke` as left behind by the last grid step, `i = gridN`). -/
def final_active_ke (a : RunInputs) (vd mult : ℚ) : ℚ :=
  step_active_ke a vd mult (gridN a.duration_days)

/-- Result dictionary of `VancoPK.run` (lines 175-182); the `time` grid is
determined by `duration_days` and is omitted. -/
structure RunResult where
  conc : List ℚ
  auc24 : ℚ
  ke : ℚ
  vd : ℚ
  half_life : ℚ

/-- Lines 84-182 of `vanco_pk.py` (`VancoPK.run`).  Returns the result
record together with the post-call model object: the loop overwrites
`self.ke` on every iteration with `active_ke / max(self.ke_multiplier, 0.01)`
(line 152; the pre-loop write `self.ke = pop_ke_traj[-1]` on line 124 is
overwritten by the first iteration), and touches no other field.  `none`
models the `IndexError` the source raises at line 98 when the grid has
fewer than two points. -/
def VancoPK.run (pk : VancoPK) (a : RunInputs) : Option (RunResult × VancoPK) :=
  if gridN a.duration_days = 0 then none
  else
    let ake := final_active_ke a pk.vd pk.ke_multiplier
    some ({ conc := conc_list a pk.vd pk.ke_multiplier,
            auc24 := auc24_of a pk.vd pk.ke_multiplier,
            ke := ake,
            vd := pk.vd,
            half_life := if 0 < ake then 0.693 / ake else 0 },
          { ke := ake / max pk.ke_multiplier 0.01,
            vd := pk.vd,
            ke_multiplier := pk.ke_multiplier,
            multiplier_sd := pk.multiplier_sd })

/-! ### Fitting fast path (`VancoPK._run_fast`, lines 208-222) -/

/-- Lines 214-219 of `vanco_pk.py`: the infusion input rate inside
`_run_fast`.  As in `VancoPK.run` the scan `break`s at the FIRST active
dose, but it divides by the raw `self.vd` (no `vd_safe` guard, line 218). -/
def fast_rate_in (vd : ℚ) (doses : List (ℚ × ℚ)) (t : ℚ) : ℚ :=
  match doses.find? (doseActive t) with
  | some _ => INFUSION_RATE / vd
  | none => 0

/-- The Euler loop of `_run_fast` over the zipped `(t_grid, ke_traj)` pairs,
threading the unclamped running concentration. -/
def run_fast_loop (vd mult dt : ℚ) (doses : List (ℚ × ℚ)) :
    List (ℚ × ℚ) → ℚ → List ℚ
  | [], _ => []
  | (t, k) :: rest, curr =>
    let active := k * mult
    let r := fast_rate_in vd doses t
    let c2 := curr + (r - active * curr) * dt
    max c2 0 :: run_fast_loop vd mult dt doses rest c2

/-- Lines 208-222 of `vanco_pk.py` (`VancoPK._run_fast`): forward-Euler
sweep with a precomputed unmultiplied rate trajectory times a candidate
multiplier; `dt` is read off the first two grid points. -/
def run_fast (vd : ℚ) (doses : List (ℚ × ℚ)) (t_grid ke_traj : List ℚ)
    (multiplier : ℚ) : List ℚ :=
  let dt := t_grid.getD 1 0 - t_grid.getD 0 0
  run_fast_loop vd multiplier dt doses (t_grid.zip ke_traj) 0

/-! ### Bayesian fitting module (`VancoPK.fit_ke_from_levels`, lines 224-265) -/

/-- `np.interp`: piecewise-linear interpolation with endpoint clamping
(no extrapolation: queries left of the grid return the first value, right
of the grid the last value). -/
def np_interp (x : ℚ) : List ℚ → List ℚ → ℚ
  | [], _ => 0
  | [_], f1 :: _ => f1
  | x1 :: x2 :: xs, f1 :: f2 :: fs =>
    if x ≤ x1 then f1
    else if x ≤ x2 then f1 + (f2 - f1) * (x - x1) / (x2 - x1)
    else np_interp x (x2 :: xs) (f2 :: fs)
  | _, _ => 0

/-- `np.gradient(f, x)` for a uniformly spaced coordinate array of spacing
`h`: central differences in the interior, one-sided differences at the two
ends (the multiplier grid this is applied to is uniform by construction). -/
def np_gradient (f : List ℚ) (h : ℚ) : List ℚ :=
  (List.range f.length).map fun i =>
    if i = 0 then (f.getD 1 0 - f.getD 0 0) / h
    else if i = f.length - 1 then (f.getD i 0 - f.getD (i - 1) 0) / h
    else (f.getD (i + 1) 0 - f.getD (i - 1) 0) / (2 * h)

/-- Tail of `np.argmax`: smallest index of the maximum value. -/
def np_argmax_go : List ℚ → ℕ → ℕ → ℚ → ℕ
  | [], _, bi, _ => bi
  | v :: rest, i, bi, bv =>
    if bv < v then np_argmax_go rest (i + 1) i v else np_argmax_go rest (i + 1) bi bv

/-- `np.argmax`: index of the first occurrence of the maximum. -/
def np_argmax : List ℚ → ℕ
  | [] => 0
  | v :: rest => np_argmax_go rest 1 0 v

/-- Line 251: `mult_grid = np.linspace(0.3, 3.0, 100)`. -/
def mult_grid : List ℚ := (List.range 100).map fun k : ℕ => 0.3 + (k : ℚ) * (2.7 / 99)

/-- The uniform spacing of `mult_grid`. -/
def mult_h : ℚ := 2.7 / 99

/-- The arguments of `fit_ke_from_levels` other than the model object.
`times_h` holds the measured-level times already converted to hours since
`sim_start` (line 228 performs exactly this conversion). -/
structure FitInputs where
  doses : List (ℚ × ℚ)
  times_h : List ℚ
  obs : List ℚ
  sim_start : ℚ
  cr_func : ℚ → ℚ × Option ℚ
  patient : Patient
  duration_days : ℚ

/-- Lines 231-232: the fitting time grid (same construction as in `run`). -/
def fit_t_grid (f : FitInputs) : List ℚ :=
  (List.range (gridN f.duration_days + 1)).map (gridT f.duration_days)

/-- Lines 235-249: the unmultiplied base elimination rate at grid step `i`
(kGFR path divides by the raw `self.vd`, line 242; population path
otherwise). -/
def fit_base_ke (vd : ℚ) (f : FitInputs) (i : ℕ) : ℚ :=
  match (f.cr_func (f.sim_start + gridT f.duration_days i)).2 with
  | some g => g * 0.06 / vd
  | none =>
    (pk_params_from_patient f.patient.age f.patient.sex f.patient.weight f.patient.height
      f.cr_func (f.sim_start + gridT f.duration_days i)).ke

/-- The precomputed `base_ke_traj` array. -/
def fit_ke_traj (vd : ℚ) (f : FitInputs) : List ℚ :=
  (List.range (gridN f.duration_days + 1)).map (fit_base_ke vd f)

/-- Lines 253-259: log-posterior of one candidate multiplier — Gaussian
log-likelihood with measurement SD 2.0 plus a Gaussian log-prior centred
at 1.0 with SD 0.3. -/
def log_post_at (vd : ℚ) (f : FitInputs) (m : ℚ) : ℚ :=
  let conc := run_fast vd f.doses (fit_t_grid f) (fit_ke_traj vd f) m
  let preds := f.times_h.map fun th => np_interp th (fit_t_grid f) conc
  let ll := -((f.obs.zip preds).map fun p => (p.1 - p.2) ^ 2 / (2 * 2 ^ 2)).sum
  let prior := -((m - 1) ^ 2) / (2 * (0.3 : ℚ) ^ 2)
  ll + prior

/-- The list `log_post` over the 100-point multiplier grid. -/
def log_post_list (vd : ℚ) (f : FitInputs) : List ℚ :=
  mult_grid.map (log_post_at vd f)

/-- Line 261: `idx = np.argmax(log_post)`. -/
def fit_idx (vd : ℚ) (f : FitInputs) : ℕ := np_argmax (log_post_list vd f)

/-- Line 262: the fitted multiplier `mult_grid[idx]`. -/
def fit_multiplier (vd : ℚ) (f : FitInputs) : ℚ :=
  mult_grid.getD (fit_idx vd f) 0

/-- Line 263: `d2 = np.gradient(np.gradient(log_post, mult_grid), mult_grid)`. -/
def fit_d2 (vd : ℚ) (f : FitInputs) : List ℚ :=
  np_gradient (np_gradient (log_post_list vd f) mult_h) mult_h

/-- The curvature value `d2[idx]` at the selected index. -/
def fit_d2_sel (vd : ℚ) (f : FitInputs) : ℚ :=
  (fit_d2 vd f).getD (fit_idx vd f) 0

/-- Line 264: `multiplier_sd = np.sqrt(-1 / d2[idx]) if d2[idx] < 0 else 0.2`.
The fallback is the constant `0.2`, not scaled by the fitted multiplier. -/
noncomputable def fit_multiplier_sd (vd : ℚ) (f : FitInputs) : ℝ :=
  if fit_d2_sel vd f < 0 then Real.sqrt (-1 / (fit_d2_sel vd f : ℝ)) else 0.2

/-- Lines 224-265 (`fit_ke_from_levels`): returns the fitted multiplier and
the model object after its mutations (`self.ke_multiplier` and
`self.multiplier_sd`; no other field is written). -/
noncomputable def VancoPK.fit_ke_from_levels (pk : VancoPK) (f : FitInputs) :
    ℚ × VancoPK :=
  (fit_multiplier pk.vd f,
   { pk with ke_multiplier := fit_multiplier pk.vd f,
             multiplier_sd := fit_multiplier_sd pk.vd f })

/-! ### Steady-state formulas (`vanco_pk.py`, `calculate_ss_conc`) -/

/-- Lines 32-46 of `vanco_pk.py` (the module defines the identical function
twice; the second definition is the live one).  Short-circuits to
`(0.0, 0.0)` for non-positive `ke`, `vd` or `interval`; otherwise applies
the intermittent-infusion steady-state peak/trough formulas. -/
noncomputable def calculate_ss_conc (ke vd dose interval infusion_rate : ℝ) : ℝ × ℝ :=
  if ke ≤ 0 ∨ vd ≤ 0 ∨ interval ≤ 0 then (0, 0)
  else
    let t_inf := dose / infusion_rate
    let cl := ke * vd
    let cpk_ss := (infusion_rate / cl) * (1 - Real.exp (-ke * t_inf)) /
      (1 - Real.exp (-ke * interval))
    let ctr_ss := cpk_ss * Real.exp (-ke * (interval - t_inf))
    (cpk_ss, ctr_ss)

/-! ### Regimen advisor (`dosing.py`, `suggest_regimen`) -/

/-- Line 59 of `dosing.py`: the candidate dosing intervals, ascending. -/
noncomputable def allowed_intervals : List ℝ := [6, 8, 12, 18, 24, 36, 48, 72]

/-- Line 60 of `dosing.py`: the candidate dose amounts. -/
noncomputable def allowed_doses : List ℝ := [250, 500, 750, 1000, 1250, 1500, 1750, 2000, 2500]

/-- The running state of a first-strict-improvement selection loop
(`best = None; for x: if e(x) < best_err: best, best_err = x, e(x)`),
specialised to a non-`None` accumulator.  Because the error is a function
of the candidate, carrying the candidate alone is equivalent to carrying
the `(best, best_err)` pair of the source. -/
noncomputable def sel_go {α : Type} (e : α → ℝ) : List α → α → α
  | [], b => b
  | x :: rest, b => if e x < e b then sel_go e rest x else sel_go e rest b

/-- The full selection loop of `suggest_regimen` (lines 70-95) and of
`np.argmin` used for dose rounding: starting from `best = None`
(`best_err = inf`), the first element is always installed, and later
elements replace the incumbent only on strict improvement — so ties keep
the earliest candidate. -/
noncomputable def sel_first {α : Type} (e : α → ℝ) : List α → Option α
  | [] => none
  | x :: rest => some (sel_go e rest x)

/-- Line 85 of `dosing.py`:
`int(allowed_doses[np.argmin(np.abs(allowed_doses - dose_est))])` — the
first allowed dose closest to the estimate (`int()` is the identity on
these integer-valued entries). -/
noncomputable def nearest_dose (dose_est : ℝ) : ℝ :=
  (sel_first (fun d => |d - dose_est|) allowed_doses).getD 0

/-- Lines 73-88 of `dosing.py`: the candidate regimen built for one
interval — target daily dose `target_auc * cl`, per-dose amount rounded to
the nearest allowed dose, and the recomputed predicted AUC24 of the rounded
dose. -/
noncomputable def regimen_cand (cl target_auc interval : ℝ) : ℝ × ℝ × ℝ :=
  let doses_per_day := 24 / interval
  let dose_est := target_auc * cl / doses_per_day
  let dose_rounded := nearest_dose dose_est
  (dose_rounded, interval, dose_rounded * doses_per_day / cl)

/-- Line 91 of `dosing.py`: the score of a candidate
`err = |predicted_auc - target_auc| + |interval - half_life| * 5` with
`half_life = log(2) * vd / cl` (line 68). -/
noncomputable def regimen_err (cl vd target_auc : ℝ) (c : ℝ × ℝ × ℝ) : ℝ :=
  |c.2.2 - target_auc| + |c.2.1 - Real.log 2 * vd / cl| * 5

/-- Lines 49-97 of `dosing.py` (`suggest_regimen`).  The clearance is
`ke * ke_multiplier * vd` (line 64).  The source contains no guard against
a zero clearance: with `cl = 0` it either raises `ZeroDivisionError` at the
per-candidate AUC division (plain-float inputs) or propagates infinite
scores so that no candidate is ever installed and `None` is returned
(numpy-float inputs); both failure modes are modelled by `none`. -/
noncomputable def suggest_regimen (ke ke_multiplier vd target_auc : ℝ) :
    Option (ℝ × ℝ × ℝ) :=
  let cl := ke * ke_multiplier * vd
  if cl = 0 then none
  else sel_first (regimen_err cl vd target_auc)
    (allowed_intervals.map (regimen_cand cl target_auc))

/-! ### Concrete scenario inputs used by witnesses and counterexamples -/

/-- The number of doses whose infusion windows contain time `t`. -/
def active_dose_count (doses : List (ℚ × ℚ)) (t : ℚ) : ℕ :=
  (doses.filter (doseActive t)).length

/-- A run scenario with two doses infusing simultaneously from `t = 0`
(constant creatinine 100 µmol/L, no kinetic GFR, two-point grid). -/
def run_two : RunInputs :=
  { doses := [(0, 1000), (0, 1000)], duration_days := 1/288, sim_start := 0,
    cr_func := fun _ => (100, none), patient := ⟨60, Sex.male, 80, 175⟩ }

/-- A run scenario with an empty dose list. -/
def run_empty : RunInputs :=
  { doses := [], duration_days := 1/288, sim_start := 0,
    cr_func := fun _ => (100, none), patient := ⟨60, Sex.male, 80, 175⟩ }

/-- A fitting scenario engineered so that the log-posterior is convex and
decreasing over the multiplier grid: one dose infusing across the whole
three-point grid, a single huge observed level (10000 mg/L) at the final
grid time, `Vd = 1` L and a constant kinetic GFR of 100, giving a base
elimination rate of 6 /h.  The MAP lands on the grid edge `m = 0.3`, where
the discrete curvature of the log-posterior is positive. -/
def fit_ex : FitInputs :=
  { doses := [(0, 1000)], times_h := [1/6], obs := [10000], sim_start := 0,
    cr_func := fun _ => (100, some 100), patient := ⟨60, Sex.male, 80, 175⟩,
    duration_days := 1/144 }

/-- Closed form of the log-posterior of the `fit_ex` scenario as a
polynomial in the candidate multiplier (derived in `fit_ex_log_post_eq`). -/
def fit_ex_log_post (m : ℚ) : ℚ :=
  -((10000 - (125 * m ^ 2 - 750 * m + 1500) / 6) ^ 2) / 8 - 50 / 9 * (m - 1) ^ 2

/-! ### Helper lemmas -/

/-- On a genuine number the NaN-aware clamp is the plain two-sided clamp. -/
theorem clampKeStep_some (v : ℚ) : clampKeStep (some v) = max (min v 0.17) 0.005 := by
  simp only [clampKeStep, pyMin, pyMax, pyLt, decide_eq_true_eq]
  split_ifs with h1 h2 h3 <;>
    simp_all [max_def, min_def, le_of_lt]

/-- The NaN fallback of the per-step clamp. -/
theorem clampKeStep_none : clampKeStep none = 0.05 := rfl

/-- The clamped rate always lands in the physiological band. -/
theorem clampKeStep_mem (x : PyFloat) :
    0.005 ≤ clampKeStep x ∧ clampKeStep x ≤ 0.17 := by
  cases x with
  | none => rw [clampKeStep_none]; norm_num
  | some v =>
    rw [clampKeStep_some]
    refine ⟨le_max_right _ _, max_le (le_trans (min_le_right _ _) (by norm_num)) (by norm_num)⟩

/-- The per-step active rate of `VancoPK.run` is the clamp of a raw rate. -/
theorem step_active_ke_mem (a : RunInputs) (vd mult : ℚ) (i : ℕ) :
    0.005 ≤ step_active_ke a vd mult i ∧ step_active_ke a vd mult i ≤ 0.17 := by
  simp only [step_active_ke]
  exact clampKeStep_mem _

/-- With at least one active dose, `find?` over the dose list succeeds. -/
theorem find?_of_active (doses : List (ℚ × ℚ)) (t : ℚ)
    (h : 1 ≤ active_dose_count doses t) :
    ∃ d, doses.find? (doseActive t) = some d := by
  rw [← Option.isSome_iff_exists, List.find?_isSome]
  unfold active_dose_count at h
  have hne : doses.filter (doseActive t) ≠ [] := by
    intro hnil
    rw [hnil] at h
    exact absurd h (by simp)
  rcases List.exists_mem_of_ne_nil _ hne with ⟨d, hd⟩
  exact ⟨d, (List.mem_filter.mp hd).1, (List.mem_filter.mp hd).2⟩

/-- With no doses the infusion input rate of `run` is zero. -/
theorem step_rate_in_nil (a : RunInputs) (vd : ℚ) (i : ℕ) (h : a.doses = []) :
    step_rate_in a vd i = 0 := by
  simp [step_rate_in, h]

/-- With no doses the running concentration of `run` stays at zero. -/
theorem curr_c_nil (a : RunInputs) (vd mult : ℚ) (h : a.doses = []) :
    ∀ i, curr_c a vd mult i = 0 := by
  intro i
  induction i with
  | zero => rfl
  | succ n ih => rw [curr_c, step_rate_in_nil a vd n h]; rw [ih]; ring

/-! ### Claim C2 -/

/-- C2: at every grid step of `VancoPK.run`, the active elimination rate
used by the concentration update (after the Bayesian multiplier is applied)
lies within `[0.005, 0.17]` 1/h, and a NaN rate is replaced by the fallback
`0.05` 1/h before it is used, so a bad step never propagates NaN into the
trajectory. -/
theorem active_ke_band (a : RunInputs) (vd mult : ℚ) (i : ℕ) :
    (0.005 ≤ step_active_ke a vd mult i ∧ step_active_ke a vd mult i ≤ 0.17) ∧
    (∀ x : PyFloat, 0.005 ≤ clampKeStep x ∧ clampKeStep x ≤ 0.17) ∧
    clampKeStep none = 0.05 :=
  ⟨step_active_ke_mem a vd mult i, clampKeStep_mem, clampKeStep_none⟩

/-! ### Claim C9 -/

/-- C9: `VancoPK.run` with an empty dose list (and any patient, creatinine
function and positive-length grid) returns a concentration trajectory that
is identically 0 at every grid point, and an AUC24 of 0. -/
theorem run_no_doses_zero (pk : VancoPK) (a : RunInputs) (hd : a.doses = [])
    (hg : gridN a.duration_days ≠ 0) :
    ∃ res pk2, pk.run a = some (res, pk2) ∧ (∀ c ∈ res.conc, c = 0) ∧ res.auc24 = 0 := by
  have hconc : ∀ c ∈ conc_list a pk.vd pk.ke_multiplier, c = 0 := by
    intro c hc
    rcases List.mem_map.mp hc with ⟨i, _, rfl⟩
    simp [conc_at, curr_c_nil a pk.vd pk.ke_multiplier hd]
  have hauc : auc24_of a pk.vd pk.ke_multiplier = 0 := by
    simp only [auc24_of]
    have hdrop : ∀ k, ((conc_list a pk.vd pk.ke_multiplier).drop k).sum = 0 :=
      fun k => List.sum_eq_zero fun c hc => hconc c (List.drop_subset _ _ hc)
    have hsum : (conc_list a pk.vd pk.ke_multiplier).sum = 0 :=
      List.sum_eq_zero hconc
    split_ifs <;> simp [hdrop, hsum]
  unfold VancoPK.run
  rw [if_neg hg]
  exact ⟨_, _, rfl, hconc, hauc⟩

/-- Witness for C9 at a concrete empty-dose run. -/
theorem run_no_doses_zero_witness :
    ∃ res pk2, (VancoPK.init 0.05 50).run run_empty = some (res, pk2) ∧
      (∀ c ∈ res.conc, c = 0) ∧ res.auc24 = 0 :=
  run_no_doses_zero (VancoPK.init 0.05 50) run_empty rfl (by norm_num [run_empty, gridN, t_max_of])

/-! ### Claim C10 -/

/-- C10: every successful `VancoPK.run` call mutates the model's `ke` field:
afterwards it equals the final grid step's clamped active elimination rate
divided by `max(ke_multiplier, 0.01)`, while `vd`, `ke_multiplier` and
`multiplier_sd` are unchanged. -/
theorem run_mutates_ke_frame (pk : VancoPK) (a : RunInputs)
    (hg : gridN a.duration_days ≠ 0) :
    ∃ res pk2, pk.run a = some (res, pk2) ∧
      pk2.ke = step_active_ke a pk.vd pk.ke_multiplier (gridN a.duration_days) /
        max pk.ke_multiplier 0.01 ∧
      pk2.vd = pk.vd ∧ pk2.ke_multiplier = pk.ke_multiplier ∧
      pk2.multiplier_sd = pk.multiplier_sd := by
  unfold VancoPK.run
  rw [if_neg hg]
  exact ⟨_, _, rfl, rfl, rfl, rfl, rfl⟩

/-- Witness for C10 at a concrete run. -/
theorem run_mutates_ke_frame_witness :
    ∃ res pk2, (VancoPK.init 0.05 50).run run_two = some (res, pk2) ∧
      pk2.ke = step_active_ke run_two 50 1 (gridN (1/288)) / max 1 0.01 ∧
      pk2.vd = 50 ∧ pk2.ke_multiplier = 1 ∧ pk2.multiplier_sd = 0.2 :=
  run_mutates_ke_frame (VancoPK.init 0.05 50) run_two (by norm_num [run_two, gridN, t_max_of])

/-! ### Claim C3 -/

/-- C3 counterexample: `build_ordered_doses` called with an ordered start
strictly before the simulation start does NOT fail — it returns the full
dose list, whose first dose carries a negative time offset. -/
theorem ordered_doses_counterexample :
    build_ordered_doses 1000 24 (-10) 0 30 = [(-10, 1000), (14, 1000)] ∧
    ((-10 : ℚ) < 0) := by
  refine ⟨?_, by norm_num⟩
  unfold build_ordered_doses
  rw [if_pos (show (0 : ℚ) < 24 ∧ (-10 : ℚ) ≤ 30 by norm_num)]
  rw [show ((⌊((30 : ℚ) - (-10)) / 24⌋).toNat + 1) = 2 by norm_num]
  rw [show List.range 2 = [0, 1] by decide]
  simp only [List.map_cons, List.map_nil]
  norm_num

/-- C3 as amended: `build_ordered_doses` performs no validation; with a
positive interval and an ordered start on or before `sim_end` but strictly
before `sim_start`, it returns the complete schedule headed by a dose with
a negative time offset (no error is reported, no truncation happens). -/
theorem ordered_doses_no_validation (dose interval start simStart simEnd : ℚ)
    (hi : 0 < interval) (hs : start ≤ simEnd) (hlt : start < simStart) :
    ∃ rest, build_ordered_doses dose interval start simStart simEnd
      = (start - simStart, dose) :: rest ∧ start - simStart < 0 := by
  unfold build_ordered_doses
  rw [if_pos ⟨hi, hs⟩, List.range_succ_eq_map, List.map_cons]
  refine ⟨List.map (fun k : ℕ => (start + (k : ℚ) * interval - simStart, dose))
      (List.map Nat.succ (List.range (⌊(simEnd - start) / interval⌋).toNat)), ?_, by linarith⟩
  norm_num

/-- Witness for C3's amended claim at a concrete input. -/
theorem ordered_doses_no_validation_witness :
    ∃ rest, build_ordered_doses 1000 24 (-10) 0 30 = ((-10 : ℚ) - 0, 1000) :: rest ∧
      (-10 : ℚ) - 0 < 0 :=
  ordered_doses_no_validation 1000 24 (-10) 0 30 (by norm_num) (by norm_num) (by norm_num)

/-! ### Claim C1 -/

/-- C1 counterexample: at grid time 0 of the `run_two` scenario two doses
are simultaneously active, yet the infusion input rate used by the Euler
update — in `run` (`step_rate_in`, with `Vd = 50`) and in `_run_fast`
(`fast_rate_in`) — is `1000 / 50 = 20` mg/L/h, not the claimed
`2 × 1000 / Vd = 40`: overlapping doses do not sum. -/
theorem infusion_rate_sum_counterexample :
    active_dose_count run_two.doses (gridT run_two.duration_days 0) = 2 ∧
    step_rate_in run_two 50 0 = 20 ∧
    fast_rate_in 50 run_two.doses (gridT run_two.duration_days 0) = 20 ∧
    (20 : ℚ) ≠ 2 * (INFUSION_RATE / vd_safe 50) := by
  have h0 : gridT run_two.duration_days 0 = 0 := by
    simp only [run_two, gridT]
    norm_num
  have h0b : gridT (1/288) 0 = 0 := by
    simp only [gridT]
    norm_num
  have hact : doseActive 0 ((0 : ℚ), (1000 : ℚ)) = true := by
    simp only [doseActive, INFUSION_RATE, Bool.and_eq_true, decide_eq_true_eq]
    norm_num
  have hfind : List.find? (doseActive 0) [((0 : ℚ), (1000 : ℚ)), (0, 1000)]
      = some (0, 1000) := by
    rw [List.find?_cons_of_pos _ hact]
  refine ⟨?_, ?_, ?_, by norm_num [INFUSION_RATE, vd_safe]⟩
  · rw [h0]
    simp only [active_dose_count, run_two]
    rw [List.filter_cons_of_pos hact, List.filter_cons_of_pos hact, List.filter_nil]
    rfl
  · simp only [step_rate_in, run_two, h0b, hfind]
    norm_num [INFUSION_RATE, vd_safe]
  · rw [h0]
    simp only [fast_rate_in, run_two, hfind]
    norm_num [INFUSION_RATE]

/-- C1 as amended: whenever at least one dose is active at a grid time (in
particular when two or more overlap), the infusion input rate used by the
Euler update is the single flat value `INFUSION_RATE / Vd` — `1000 /
vd_safe(Vd)` in `VancoPK.run` and `1000 / Vd` in `_run_fast` — independent
of the number of active doses: the scan stops at the first active dose and
contributions never sum. -/
theorem infusion_rate_first_active :
    (∀ (a : RunInputs) (vd : ℚ) (i : ℕ),
      1 ≤ active_dose_count a.doses (gridT a.duration_days i) →
      step_rate_in a vd i = INFUSION_RATE / vd_safe vd) ∧
    (∀ (vd t : ℚ) (doses : List (ℚ × ℚ)),
      1 ≤ active_dose_count doses t →
      fast_rate_in vd doses t = INFUSION_RATE / vd) := by
  constructor
  · intro a vd i h
    rcases find?_of_active _ _ h with ⟨d, hd⟩
    simp only [step_rate_in, hd]
  · intro vd t doses h
    rcases find?_of_active _ _ h with ⟨d, hd⟩
    simp only [fast_rate_in, hd]

/-- Witness for C1's amended claim: both rate computations evaluated in the
two-overlapping-dose scenario. -/
theorem infusion_rate_first_active_witness :
    step_rate_in run_two 50 0 = INFUSION_RATE / vd_safe 50 ∧
    fast_rate_in 50 run_two.doses 0 = INFUSION_RATE / 50 := by
  have hact : doseActive 0 ((0 : ℚ), (1000 : ℚ)) = true := by
    simp only [doseActive, INFUSION_RATE, Bool.and_eq_true, decide_eq_true_eq]
    norm_num
  have hcount : 1 ≤ active_dose_count run_two.doses (gridT run_two.duration_days 0) := by
    have h0 : gridT run_two.duration_days 0 = 0 := by
      simp only [run_two, gridT]; norm_num
    rw [h0]
    simp only [active_dose_count, run_two]
    rw [List.filter_cons_of_pos hact, List.filter_cons_of_pos hact, List.filter_nil]
    norm_num
  have hcount0 : 1 ≤ active_dose_count run_two.doses 0 := by
    simp only [active_dose_count, run_two]
    rw [List.filter_cons_of_pos hact, List.filter_cons_of_pos hact, List.filter_nil]
    norm_num
  exact ⟨infusion_rate_first_active.1 run_two 50 0 hcount,
         infusion_rate_first_active.2 50 0 run_two.doses hcount0⟩

/-! ### Claim C5 -/

/-- C5 counterexample: the single-point branch of
`build_creatinine_function` returns the raw measured value with no
10 µmol/L floor — a series holding one point with value 5 yields 5. -/
theorem creatinine_floor_counterexample :
    (build_creatinine_function [(0, 5)] none 1 none) 0 = (5, none) ∧ ((5 : ℚ) < 10) := by
  have hp : processCrData [((0 : ℚ), (5 : ℚ))] = [(0, 5)] := by
    norm_num [processCrData, dedupPairs, sortByTime, insertByTime]
  refine ⟨?_, by norm_num⟩
  simp only [build_creatinine_function, hp]
  norm_num

/-- C5 as amended: only the multi-point interpolation branch of
`build_creatinine_function` floors the returned creatinine at 10 µmol/L;
the single-point branch returns the raw stored value and the
modified-factor branch returns the raw first value times the factor,
neither of them floored. -/
theorem creatinine_floor_only_interpolation :
    (∀ (crData : List (ℚ × ℚ)) (fut : Option ℚ) (pp : Option Patient) (t : ℚ),
      2 ≤ (processCrData crData).length →
      10 ≤ ((build_creatinine_function crData fut 1 pp) t).1) ∧
    (∀ (crData : List (ℚ × ℚ)) (fut : Option ℚ) (pp : Option Patient) (t t0 v : ℚ),
      processCrData crData = [(t0, v)] →
      (build_creatinine_function crData fut 1 pp) t = (v, none)) ∧
    (∀ (crData : List (ℚ × ℚ)) (fut : Option ℚ) (pp : Option Patient) (t factor : ℚ),
      factor ≠ 1 →
      (build_creatinine_function crData fut factor pp) t
        = (((processCrData crData).getD 0 (0, 0)).2 * factor, none)) := by
  refine ⟨?_, ?_, ?_⟩
  · intro crData fut pp t h
    simp only [build_creatinine_function]
    rw [if_neg (by simp : ¬((1 : ℚ) ≠ 1))]
    rw [if_neg (by omega : ¬((processCrData crData).length < 2))]
    cases pp <;> simp
  · intro crData fut pp t t0 v h
    simp only [build_creatinine_function, h]
    norm_num
  · intro crData fut pp t factor hfac
    simp only [build_creatinine_function]
    rw [if_pos hfac]

/-- Witness for C5's amended claim on concrete series. -/
theorem creatinine_floor_only_interpolation_witness :
    10 ≤ ((build_creatinine_function [(0, 100), (1, 200)] none 1 none) (-1)).1 ∧
    (build_creatinine_function [(0, 7)] none 1 none) 3 = (7, none) ∧
    (build_creatinine_function [(0, 8), (2, 12)] none 2 none) 5
      = (((processCrData [(0, 8), (2, 12)]).getD 0 (0, 0)).2 * 2, none) := by
  exact ⟨creatinine_floor_only_interpolation.1 [(0, 100), (1, 200)] none none (-1)
           (by norm_num [processCrData, dedupPairs, sortByTime, insertByTime]),
         creatinine_floor_only_interpolation.2.1 [(0, 7)] none none 3 0 7
           (by norm_num [processCrData, dedupPairs, sortByTime, insertByTime]),
         creatinine_floor_only_interpolation.2.2 [(0, 8), (2, 12)] none none 5 2
           (by norm_num)⟩

/-! ### Claim C4 -/

/-- In a strictly time-sorted point list, the head's time is below the time
of the last element of the list. -/
theorem chain_fst_lt_last : ∀ (l : List (ℚ × ℚ)) (u pn : ℚ × ℚ),
    List.Chain' (fun a b : ℚ × ℚ => a.1 < b.1) (u :: l ++ [pn]) → u.1 < pn.1 := by
  intro l
  induction l with
  | nil =>
    intro u pn hc
    exact (List.chain'_cons.mp hc).1
  | cons w l' ih =>
    intro u pn hc
    rcases List.chain'_cons.mp hc with ⟨huw, hc'⟩
    exact lt_trans huw (ih w pn hc')

/-- `interp_extrap` on a query at or below the second timestamp uses the
first segment (also linearly extrapolating below the first timestamp). -/
theorem interp_extrap_first (x : ℚ) (p1 p2 : ℚ × ℚ) (rest : List (ℚ × ℚ))
    (h : x ≤ p2.1) :
    interp_extrap x (p1 :: p2 :: rest)
      = p1.2 + (p2.2 - p1.2) * (x - p1.1) / (p2.1 - p1.1) := by
  rcases p1 with ⟨t1, v1⟩
  rcases p2 with ⟨t2, v2⟩
  simp only [interp_extrap]
  rw [if_pos (Or.inl h)]

/-- `interp_extrap` on a query at or beyond the last timestamp of a
strictly time-sorted list uses the last segment (linear extrapolation). -/
theorem interp_extrap_last : ∀ (ps : List (ℚ × ℚ)) (pm pn : ℚ × ℚ) (x : ℚ),
    List.Chain' (fun a b : ℚ × ℚ => a.1 < b.1) (ps ++ [pm, pn]) →
    pn.1 ≤ x →
    interp_extrap x (ps ++ [pm, pn])
      = pm.2 + (pn.2 - pm.2) * (x - pm.1) / (pn.1 - pm.1) := by
  intro ps
  induction ps with
  | nil =>
    intro pm pn x _ _
    rcases pm with ⟨tm, vm⟩
    rcases pn with ⟨tn, vn⟩
    simp only [List.nil_append, interp_extrap]
    simp
  | cons q ps' ih =>
    intro pm pn x hc hx
    have hc' : List.Chain' (fun a b : ℚ × ℚ => a.1 < b.1) (ps' ++ [pm, pn]) := by
      rw [List.cons_append] at hc
      exact hc.tail
    cases ps' with
    | nil =>
      rcases q with ⟨tq, vq⟩
      rcases pm with ⟨tm, vm⟩
      rcases pn with ⟨tn, vn⟩
      have hmn : tm < tn := (List.chain'_cons.mp hc').1
      simp only [List.cons_append, List.nil_append, interp_extrap]
      rw [if_neg (by push_neg; exact ⟨by linarith, by simp⟩)]
      have := ih (tm, vm) (tn, vn) x hc' hx
      simpa using this
    | cons q' ps'' =>
      rcases q with ⟨tq, vq⟩
      rcases q' with ⟨tq', vq'⟩
      have hq'n : tq' < pn.1 := by
        have hshape : (((tq', vq') : ℚ × ℚ) :: (ps'' ++ [pm])) ++ [pn]
            = ((tq', vq') :: ps'') ++ [pm, pn] := by simp
        have := chain_fst_lt_last (ps'' ++ [pm]) (tq', vq') pn (by rw [hshape]; exact hc')
        exact this
      simp only [List.cons_append, interp_extrap]
      rw [if_neg (by push_neg; exact ⟨by linarith, by simp⟩)]
      have := ih pm pn x hc' hx
      simpa using this

/-- The creatinine-concentration component of the multi-point branch is the
floored linear interpolation/extrapolation over the processed series. -/
theorem build_cr_value (crData : List (ℚ × ℚ)) (fut : Option ℚ) (pp : Option Patient)
    (t : ℚ) (h : 2 ≤ (processCrData crData).length) :
    ((build_creatinine_function crData fut 1 pp) t).1
      = max 10 (interp_extrap t (processCrData crData)) := by
  simp only [build_creatinine_function]
  rw [if_neg (by simp : ¬((1 : ℚ) ≠ 1)),
      if_neg (by omega : ¬((processCrData crData).length < 2))]
  cases pp <;> simp

/-- C4 counterexample: for the two-point series (0 h, 100) → (1 h, 200) the
function does not hold the endpoint values — at `t = -1` it returns the
floored extrapolation 10 (not the first value 100), and at `t = 2` it
returns the extrapolation 300 (not the last value 200). -/
theorem creatinine_hold_counterexample :
    (build_creatinine_function [(0, 100), (1, 200)] none 1 none) (-1) = (10, none) ∧
    ((10 : ℚ) ≠ 100) ∧
    (build_creatinine_function [(0, 100), (1, 200)] none 1 none) 2 = (300, none) ∧
    ((300 : ℚ) ≠ 200) := by
  have hp : processCrData [((0 : ℚ), (100 : ℚ)), (1, 200)] = [(0, 100), (1, 200)] := by
    norm_num [processCrData, dedupPairs, sortByTime, insertByTime]
  refine ⟨?_, by norm_num, ?_, by norm_num⟩ <;>
  · simp only [build_creatinine_function, hp]
    norm_num [interp_extrap]

/-- C4 as amended: with at least two measured points (and no future
anchor), `build_creatinine_function` does extrapolate the linear trend
beyond the measured endpoints — before the first timestamp it follows the
first segment's line and at/after the last timestamp the last segment's
line, in both cases floored at 10 µmol/L; it does not hold the endpoint
values. -/
theorem creatinine_extrapolates (crData : List (ℚ × ℚ)) (fut : Option ℚ)
    (pp : Option Patient) (p1 p2 : ℚ × ℚ) (rest : List (ℚ × ℚ))
    (hp : processCrData crData = p1 :: p2 :: rest)
    (hc : List.Chain' (fun a b : ℚ × ℚ => a.1 < b.1) (p1 :: p2 :: rest)) :
    (∀ t, t ≤ p1.1 →
      ((build_creatinine_function crData fut 1 pp) t).1
        = max 10 (p1.2 + (p2.2 - p1.2) * (t - p1.1) / (p2.1 - p1.1))) ∧
    (∀ (ps : List (ℚ × ℚ)) (pm pn : ℚ × ℚ), p1 :: p2 :: rest = ps ++ [pm, pn] →
      ∀ t, pn.1 ≤ t →
      ((build_creatinine_function crData fut 1 pp) t).1
        = max 10 (pm.2 + (pn.2 - pm.2) * (t - pm.1) / (pn.1 - pm.1))) := by
  have hlen : 2 ≤ (processCrData crData).length := by rw [hp]; simp
  constructor
  · intro t ht
    rw [build_cr_value crData fut pp t hlen, hp]
    have h12 : p1.1 < p2.1 := (List.chain'_cons.mp hc).1
    rw [interp_extrap_first t p1 p2 rest (le_trans ht (le_of_lt h12))]
  · intro ps pm pn hsplit t ht
    rw [build_cr_value crData fut pp t hlen, hp, hsplit]
    rw [interp_extrap_last ps pm pn t (hsplit ▸ hc) ht]

/-- Witness for C4's amended claim on the concrete series
(0 h, 100), (1 h, 200). -/
theorem creatinine_extrapolates_witness :
    (((build_creatinine_function [(0, 100), (1, 200)] none 1 none) (-1)).1
      = max 10 (100 + (200 - 100) * ((-1) - 0) / (1 - 0))) ∧
    (((build_creatinine_function [(0, 100), (1, 200)] none 1 none) 2).1
      = max 10 (100 + (200 - 100) * (2 - 0) / (1 - 0))) := by
  have hp : processCrData [((0 : ℚ), (100 : ℚ)), (1, 200)] = [(0, 100), (1, 200)] := by
    norm_num [processCrData, dedupPairs, sortByTime, insertByTime]
  have hc : List.Chain' (fun a b : ℚ × ℚ => a.1 < b.1)
      [((0 : ℚ), (100 : ℚ)), (1, 200)] := by
    rw [List.chain'_pair]
    norm_num
  exact ⟨(creatinine_extrapolates _ none none (0, 100) (1, 200) [] hp hc).1 (-1)
           (by norm_num),
         (creatinine_extrapolates _ none none (0, 100) (1, 200) [] hp hc).2
           [] (0, 100) (1, 200) rfl 2 (by norm_num)⟩

/-! ### Claim C8 -/

/-- C8 counterexample: `suggest_regimen` does not short-circuit on a zero
clearance — with `ke = 0` the call fails (modelled by `none`: the source
raises `ZeroDivisionError` for plain floats, or propagates infinite scores
and returns Python `None` for numpy floats) instead of producing a safe
default result. -/
theorem advisor_divzero_counterexample :
    suggest_regimen 0 1 50 500 = none := by
  simp only [suggest_regimen]
  norm_num

/-- C8 as amended: `calculate_ss_conc` short-circuits to `(0, 0)` whenever
`ke ≤ 0`, `vd ≤ 0` or `interval ≤ 0`; but `suggest_regimen` has no such
guard — whenever the clearance `ke × multiplier × Vd` is zero it fails with
a division by zero (no safe default is returned). -/
theorem nonpositive_params_guard :
    (∀ ke vd dose interval r : ℝ, ke ≤ 0 ∨ vd ≤ 0 ∨ interval ≤ 0 →
      calculate_ss_conc ke vd dose interval r = (0, 0)) ∧
    (∀ ke m vd t : ℝ, ke * m * vd = 0 → suggest_regimen ke m vd t = none) := by
  constructor
  · intro ke vd dose interval r h
    simp only [calculate_ss_conc]
    rw [if_pos h]
  · intro ke m vd t h
    simp only [suggest_regimen]
    rw [if_pos h]

/-- Witness for C8's amended claim at concrete inputs. -/
theorem nonpositive_params_guard_witness :
    calculate_ss_conc 0 50 1000 12 1000 = (0, 0) ∧
    suggest_regimen 0 1 50 500 = none :=
  ⟨nonpositive_params_guard.1 0 50 1000 12 1000 (Or.inl le_rfl),
   nonpositive_params_guard.2 0 1 50 500 (by norm_num)⟩

/-! ### Claim C7 -/

/-- The first-strict-improvement loop `sel_go` picks the first minimum:
the incumbent-plus-candidates list splits around the result, with every
earlier element strictly worse and every later element no better. -/
theorem sel_go_split {α : Type} (e : α → ℝ) : ∀ (l : List α) (b : α),
    ∃ l1 l2, b :: l = l1 ++ sel_go e l b :: l2 ∧
      (∀ y ∈ l1, e (sel_go e l b) < e y) ∧
      (∀ y ∈ l2, e (sel_go e l b) ≤ e y) := by
  intro l
  induction l with
  | nil =>
    intro b
    exact ⟨[], [], rfl, by simp, by simp⟩
  | cons x rest ih =>
    intro b
    by_cases hxb : e x < e b
    · rw [show sel_go e (x :: rest) b = sel_go e rest x from by rw [sel_go, if_pos hxb]]
      rcases ih x with ⟨l1, l2, hsplit, hl1, hl2⟩
      have hrx : e (sel_go e rest x) ≤ e x := by
        cases l1 with
        | nil =>
          simp only [List.nil_append, List.cons.injEq] at hsplit
          rw [← hsplit.1]
        | cons a l1' =>
          have ha : x = a := by
            have := congrArg (fun ll => ll.head?) hsplit
            simpa using this
          have h' : e (sel_go e rest x) < e a := hl1 a (List.mem_cons_self a l1')
          rw [← ha] at h'
          exact le_of_lt h'
      refine ⟨b :: l1, l2, by rw [List.cons_append, ← hsplit], ?_, hl2⟩
      intro y hy
      rcases List.mem_cons.mp hy with rfl | hy'
      · exact lt_of_le_of_lt hrx hxb
      · exact hl1 y hy'
    · rw [show sel_go e (x :: rest) b = sel_go e rest b from by rw [sel_go, if_neg hxb]]
      rcases ih b with ⟨l1, l2, hsplit, hl1, hl2⟩
      cases l1 with
      | nil =>
        have hb : b = sel_go e rest b := by
          have := congrArg (fun ll => ll.head?) hsplit
          simpa using this
        have hrest : rest = l2 := by
          have := congrArg (fun ll => ll.tail) hsplit
          simpa using this
        refine ⟨[], x :: l2, ?_, by simp, ?_⟩
        · rw [List.nil_append, ← hb, hrest]
        · intro y hy
          rcases List.mem_cons.mp hy with rfl | hy'
          · rw [← hb]
            exact le_of_not_lt hxb
          · exact hl2 y hy'
      | cons a l1' =>
        have ha : b = a := by
          have := congrArg (fun ll => ll.head?) hsplit
          simpa using this
        have hrest : rest = l1' ++ sel_go e rest b :: l2 := by
          have := congrArg (fun ll => ll.tail) hsplit
          simpa using this
        have hrb : e (sel_go e rest b) < e b := by
          have h' : e (sel_go e rest b) < e a := hl1 a (List.mem_cons_self a l1')
          rw [← ha] at h'
          exact h'
        refine ⟨b :: x :: l1', l2, ?_, ?_, hl2⟩
        · rw [List.cons_append, List.cons_append, ← hrest]
        · intro y hy
          rcases List.mem_cons.mp hy with rfl | hy'
          · exact hrb
          · rcases List.mem_cons.mp hy' with rfl | hy''
            · exact lt_of_lt_of_le hrb (le_of_not_lt hxb)
            · exact hl1 y (List.mem_cons_of_mem a hy'')

/-- `sel_first` on a non-empty list: the selected candidate splits the
list, with strictly worse elements before it and no-better ones after. -/
theorem sel_first_split {α : Type} (e : α → ℝ) (x : α) (rest : List α) :
    ∃ c l1 l2, sel_first e (x :: rest) = some c ∧ x :: rest = l1 ++ c :: l2 ∧
      (∀ y ∈ l1, e c < e y) ∧ (∀ y ∈ l2, e c ≤ e y) := by
  rcases sel_go_split e rest x with ⟨l1, l2, h, h1, h2⟩
  exact ⟨sel_go e rest x, l1, l2, rfl, h, h1, h2⟩

/-- A mapped list that splits around an element comes from a split of the
original list. -/
theorem map_split_of_eq {α β : Type} (f : α → β) :
    ∀ (l : List α) (L1 L2 : List β) (c : β),
      List.map f l = L1 ++ c :: L2 →
      ∃ m1 τ m2, l = m1 ++ τ :: m2 ∧ L1 = List.map f m1 ∧ c = f τ ∧ L2 = List.map f m2 := by
  intro l
  induction l with
  | nil =>
    intro L1 L2 c h
    exact absurd h.symm (by simp)
  | cons a l' ih =>
    intro L1 L2 c h
    cases L1 with
    | nil =>
      simp only [List.map_cons, List.nil_append, List.cons.injEq] at h
      exact ⟨[], a, l', rfl, rfl, h.1.symm, h.2.symm⟩
    | cons b L1' =>
      simp only [List.map_cons, List.cons_append, List.cons.injEq] at h
      rcases ih L1' L2 c h.2 with ⟨m1, τ, m2, hl, hL1, hc, hL2⟩
      exact ⟨a :: m1, τ, m2, by rw [List.cons_append, ← hl], by rw [List.map_cons, hL1, h.1],
             hc, hL2⟩

/-- The rounded dose always comes from the allowed dose set. -/
theorem nearest_dose_mem (est : ℝ) : nearest_dose est ∈ allowed_doses := by
  rcases sel_first_split (fun d => |d - est|) 250
      [500, 750, 1000, 1250, 1500, 1750, 2000, 2500] with ⟨c, l1, l2, hsel, hsplit, _, _⟩
  have hAD : allowed_doses = 250 :: [500, 750, 1000, 1250, 1500, 1750, 2000, 2500] := rfl
  unfold nearest_dose
  rw [hAD, hsel, Option.getD_some, hsplit]
  exact List.mem_append_right _ (List.mem_cons_self _ _)

/-- C7: for positive `ke`, multiplier and `Vd`, `suggest_regimen` returns a
candidate `(dose, interval, predicted_auc)` with the dose drawn from the
allowed dose set, the interval from the allowed interval list (exposed via
a split of that list), `predicted_auc = dose × (24/interval) / clearance`
for `clearance = ke × multiplier × Vd`, and the returned candidate
minimises `|predicted_auc − target| + 5 × |interval − ln2 × Vd/clearance|`
over all candidate intervals, ties broken by the first (smallest) interval:
every interval listed before the chosen one scores strictly worse. -/
theorem suggest_regimen_minimizes (ke mult vd target : ℝ)
    (hke : 0 < ke) (hm : 0 < mult) (hvd : 0 < vd) :
    ∃ (c : ℝ × ℝ × ℝ) (m1 m2 : List ℝ),
      suggest_regimen ke mult vd target = some c ∧
      allowed_intervals = m1 ++ c.2.1 :: m2 ∧
      c = regimen_cand (ke * mult * vd) target c.2.1 ∧
      c.1 ∈ allowed_doses ∧
      c.2.2 = c.1 * (24 / c.2.1) / (ke * mult * vd) ∧
      (∀ τ ∈ allowed_intervals,
        regimen_err (ke * mult * vd) vd target c
          ≤ regimen_err (ke * mult * vd) vd target
              (regimen_cand (ke * mult * vd) target τ)) ∧
      (∀ τ ∈ m1,
        regimen_err (ke * mult * vd) vd target c
          < regimen_err (ke * mult * vd) vd target
              (regimen_cand (ke * mult * vd) target τ)) := by
  have hcl : ke * mult * vd ≠ 0 := ne_of_gt (by positivity)
  simp only [suggest_regimen]
  rw [if_neg hcl]
  obtain ⟨c, L1, L2, hsel, hsplit, hl1, hl2⟩ :=
    sel_first_split (regimen_err (ke * mult * vd) vd target)
      (regimen_cand (ke * mult * vd) target 6)
      (List.map (regimen_cand (ke * mult * vd) target) [8, 12, 18, 24, 36, 48, 72])
  have hmap : List.map (regimen_cand (ke * mult * vd) target) allowed_intervals
      = regimen_cand (ke * mult * vd) target 6 ::
        List.map (regimen_cand (ke * mult * vd) target) [8, 12, 18, 24, 36, 48, 72] := rfl
  have hms : List.map (regimen_cand (ke * mult * vd) target) allowed_intervals
      = L1 ++ c :: L2 := by rw [hmap, hsplit]
  obtain ⟨m1, τ, m2, hAIsplit, hL1, hcτ, hL2⟩ :=
    map_split_of_eq (regimen_cand (ke * mult * vd) target) allowed_intervals L1 L2 c hms
  have hc21 : c.2.1 = τ := by rw [hcτ]; simp [regimen_cand]
  refine ⟨c, m1, m2, ?_, ?_, ?_, ?_, ?_, ?_, ?_⟩
  · rw [hmap]
    exact hsel
  · rw [hc21]
    exact hAIsplit
  · rw [hc21]
    exact hcτ
  · rw [hcτ]
    simp only [regimen_cand]
    exact nearest_dose_mem _
  · rw [hcτ]
    simp [regimen_cand]
  · intro τ' hτ'
    have hmem : regimen_cand (ke * mult * vd) target τ' ∈ L1 ++ c :: L2 := by
      rw [← hms]
      exact List.mem_map_of_mem _ hτ'
    rcases List.mem_append.mp hmem with hin | hin
    · exact le_of_lt (hl1 _ hin)
    · rcases List.mem_cons.mp hin with heq | hin'
      · rw [heq]
      · exact hl2 _ hin'
  · intro τ' hτ'
    have hmem : regimen_cand (ke * mult * vd) target τ' ∈ L1 := by
      rw [hL1]
      exact List.mem_map_of_mem _ hτ'
    exact hl1 _ hmem

/-- Witness for C7 at `ke = 0.1`, multiplier 1, `Vd = 50`, target 500. -/
theorem suggest_regimen_minimizes_witness :
    ∃ (c : ℝ × ℝ × ℝ) (m1 m2 : List ℝ),
      suggest_regimen 0.1 1 50 500 = some c ∧
      allowed_intervals = m1 ++ c.2.1 :: m2 ∧
      c = regimen_cand (0.1 * 1 * 50) 500 c.2.1 ∧
      c.1 ∈ allowed_doses ∧
      c.2.2 = c.1 * (24 / c.2.1) / (0.1 * 1 * 50) ∧
      (∀ τ ∈ allowed_intervals,
        regimen_err (0.1 * 1 * 50) 50 500 c
          ≤ regimen_err (0.1 * 1 * 50) 50 500 (regimen_cand (0.1 * 1 * 50) 500 τ)) ∧
      (∀ τ ∈ m1,
        regimen_err (0.1 * 1 * 50) 50 500 c
          < regimen_err (0.1 * 1 * 50) 50 500 (regimen_cand (0.1 * 1 * 50) 500 τ)) :=
  suggest_regimen_minimizes 0.1 1 50 500 (by norm_num) (by norm_num) (by norm_num)

/-! ### Claim C6 -/

/-- The fitting grid of the `fit_ex` scenario has three points. -/
theorem fit_ex_grid : fit_t_grid fit_ex = [0, 1/12, 1/6] := by
  have hN : gridN ((1 : ℚ)/144) = 2 := by
    norm_num [gridN, t_max_of]
    rfl
  simp only [fit_t_grid, fit_ex, hN]
  rw [show List.range 3 = [0, 1, 2] by decide]
  simp only [List.map_cons, List.map_nil]
  norm_num [gridT, gridDt, t_max_of, hN]

/-- The unmultiplied rate trajectory of the `fit_ex` scenario is constant 6. -/
theorem fit_ex_traj : fit_ke_traj 1 fit_ex = [6, 6, 6] := by
  have hN : gridN ((1 : ℚ)/144) = 2 := by
    norm_num [gridN, t_max_of]
    rfl
  simp only [fit_ke_traj, fit_ex, hN]
  rw [show List.range 3 = [0, 1, 2] by decide]
  simp only [List.map_cons, List.map_nil, fit_base_ke, fit_ex]
  norm_num

/-- Every dose query in the `fit_ex` window finds the single dose. -/
theorem fit_ex_rate (t : ℚ) (h1 : 0 ≤ t) (h2 : t ≤ 1) :
    fast_rate_in 1 [((0 : ℚ), (1000 : ℚ))] t = 1000 := by
  have hact : doseActive t ((0 : ℚ), (1000 : ℚ)) = true := by
    simp only [doseActive, INFUSION_RATE, Bool.and_eq_true, decide_eq_true_eq]
    exact ⟨h1, by norm_num; linarith⟩
  simp only [fast_rate_in, List.find?_cons_of_pos _ hact]
  norm_num [INFUSION_RATE]

/-- The `_run_fast` sweep of the `fit_ex` scenario in closed form. -/
theorem fit_ex_conc (m : ℚ) (h0 : 0 ≤ m) (h3 : m ≤ 3) :
    run_fast 1 fit_ex.doses (fit_t_grid fit_ex) (fit_ke_traj 1 fit_ex) m
      = [250/3, 500/3 - 125*m/3, (125*m^2 - 750*m + 1500)/6] := by
  rw [fit_ex_grid, fit_ex_traj, show fit_ex.doses = [(0, 1000)] from rfl]
  simp only [run_fast, List.zip, List.zipWith, run_fast_loop,
    List.getD_cons_zero, List.getD_cons_succ]
  rw [fit_ex_rate 0 le_rfl (by norm_num),
      fit_ex_rate (1/12) (by norm_num) (by norm_num),
      fit_ex_rate (1/6) (by norm_num) (by norm_num)]
  have key : ∀ x y : ℚ, x = y → 0 ≤ y → x ⊔ 0 = y := by
    rintro x y rfl h
    exact max_eq_left h
  simp only [List.cons.injEq, and_true]
  exact ⟨key _ _ (by ring) (by norm_num),
         key _ _ (by ring) (by linarith),
         key _ _ (by ring) (by nlinarith [sq_nonneg (m - 3)])⟩

/-- The log-posterior of the `fit_ex` scenario in closed polynomial form. -/
theorem fit_ex_log_post_eq (m : ℚ) (h0 : 0 ≤ m) (h3 : m ≤ 3) :
    log_post_at 1 fit_ex m = fit_ex_log_post m := by
  have hinterp : np_interp (1/6) [0, 1/12, 1/6]
      [250/3, 500/3 - 125*m/3, (125*m^2 - 750*m + 1500)/6]
      = (125*m^2 - 750*m + 1500)/6 := by
    simp only [np_interp]
    rw [if_neg (by norm_num), if_neg (by norm_num), if_neg (by norm_num),
        if_pos (by norm_num)]
    ring
  simp only [log_post_at, show fit_ex.times_h = [1/6] from rfl,
    show fit_ex.obs = [10000] from rfl, List.map_cons, List.map_nil,
    List.zip, List.zipWith, List.sum_cons, List.sum_nil]
  rw [fit_ex_conc m h0 h3, fit_ex_grid, hinterp]
  simp only [fit_ex_log_post]
  ring

/-- The `fit_ex` log-posterior is strictly decreasing across the multiplier
grid: the huge observed level makes the likelihood dominate, and the
predicted concentration falls with the multiplier. -/
theorem fit_ex_log_post_anti (x y : ℚ) (hx : 3/10 ≤ x) (hxy : x < y) (hy : y ≤ 3) :
    fit_ex_log_post y < fit_ex_log_post x := by
  have hx3 : x < 3 := lt_of_lt_of_le hxy hy
  have hy310 : 3/10 ≤ y := le_of_lt (lt_of_le_of_lt hx hxy)
  have hPx : (125*x^2 - 750*x + 1500)/6 ≤ 215 := by
    nlinarith [mul_nonneg (sub_nonneg.mpr hx) (sub_nonneg.mpr hx3.le)]
  have hPy : (125*y^2 - 750*y + 1500)/6 ≤ 215 := by
    nlinarith [mul_nonneg (sub_nonneg.mpr hy310) (sub_nonneg.mpr hy)]
  have key : fit_ex_log_post x - fit_ex_log_post y
      = (y - x) * ((125:ℚ)/48 * ((6 - (x+y)) *
          (20000 - (125*x^2 - 750*x + 1500)/6 - (125*y^2 - 750*y + 1500)/6))
          + 50/9 * ((x+y) - 2)) := by
    simp only [fit_ex_log_post]
    ring
  have hbr : 0 < (125:ℚ)/48 * ((6 - (x+y)) *
      (20000 - (125*x^2 - 750*x + 1500)/6 - (125*y^2 - 750*y + 1500)/6))
      + 50/9 * ((x+y) - 2) := by
    rcases le_or_lt (x + y) 2 with hS | hS
    · have h6S : 4 ≤ 6 - (x+y) := by linarith
      have h20 : (19570:ℚ) ≤ 20000 - (125*x^2 - 750*x + 1500)/6
          - (125*y^2 - 750*y + 1500)/6 := by linarith
      have hprod : (4:ℚ) * 19570 ≤ (6 - (x+y)) *
          (20000 - (125*x^2 - 750*x + 1500)/6 - (125*y^2 - 750*y + 1500)/6) :=
        mul_le_mul h6S h20 (by norm_num) (by linarith)
      have hS0 : (3:ℚ)/5 ≤ x + y := by linarith
      linarith [hprod]
    · have h6S : (0:ℚ) < 6 - (x+y) := by linarith
      have h20 : (0:ℚ) < 20000 - (125*x^2 - 750*x + 1500)/6
          - (125*y^2 - 750*y + 1500)/6 := by linarith
      have hprod := mul_pos h6S h20
      linarith [hprod]
  have hdiff : 0 < fit_ex_log_post x - fit_ex_log_post y := by
    rw [key]
    exact mul_pos (by linarith) hbr
  linarith

/-- `np_argmax_go` keeps its incumbent when nothing later beats it. -/
theorem np_argmax_go_keep : ∀ (l : List ℚ) (i bi : ℕ) (bv : ℚ),
    (∀ w ∈ l, ¬ bv < w) → np_argmax_go l i bi bv = bi := by
  intro l
  induction l with
  | nil => intro i bi bv _; rfl
  | cons v rest ih =>
    intro i bi bv h
    rw [np_argmax_go, if_neg (h v (List.mem_cons_self v rest))]
    exact ih (i + 1) bi bv (fun w hw => h w (List.mem_cons_of_mem v hw))

/-- `np.argmax` of a list whose head strictly dominates is 0. -/
theorem np_argmax_head (v : ℚ) (rest : List ℚ) (h : ∀ w ∈ rest, w < v) :
    np_argmax (v :: rest) = 0 := by
  rw [np_argmax]
  exact np_argmax_go_keep rest 1 0 v (fun w hw => not_lt.mpr (le_of_lt (h w hw)))

/-- `np_argmax_go` never returns an index beyond the scanned range. -/
theorem np_argmax_go_lt : ∀ (l : List ℚ) (i bi : ℕ) (bv : ℚ),
    bi < i → np_argmax_go l i bi bv < i + l.length := by
  intro l
  induction l with
  | nil =>
    intro i bi bv h
    simpa using h
  | cons v rest ih =>
    intro i bi bv h
    rw [np_argmax_go]
    by_cases hc : bv < v
    · rw [if_pos hc]
      have := ih (i + 1) i v (Nat.lt_succ_self i)
      simp only [List.length_cons]
      omega
    · rw [if_neg hc]
      have := ih (i + 1) bi bv (Nat.lt_succ_of_lt h)
      simp only [List.length_cons]
      omega

/-- `np.argmax` of a non-empty list indexes into the list. -/
theorem np_argmax_lt (v : ℚ) (rest : List ℚ) :
    np_argmax (v :: rest) < (v :: rest).length := by
  rw [np_argmax]
  have := np_argmax_go_lt rest 1 0 v (by norm_num)
  simp only [List.length_cons]
  omega

/-- The multiplier grid decomposed as its head `0.3` and the 99-point tail. -/
theorem mult_grid_eq : mult_grid = (3/10 : ℚ) ::
    (List.range 99).map (fun k : ℕ => 3/10 + ((k : ℚ) + 1) * (27/990)) := by
  rw [mult_grid, show (100 : ℕ) = 99 + 1 from rfl, List.range_succ_eq_map, List.map_cons]
  congr 1
  · norm_num
  · rw [List.map_map]
    apply List.map_congr_left
    intro k _
    simp only [Function.comp_apply]
    push_cast
    ring_nf

/-- Every tail grid multiplier scores strictly below the head `0.3` on the
`fit_ex` log-posterior. -/
theorem fit_ex_tail_lt :
    ∀ w ∈ ((List.range 99).map (fun k : ℕ => 3/10 + ((k : ℚ) + 1) * (27/990))).map
        (log_post_at 1 fit_ex),
      w < log_post_at 1 fit_ex (3/10) := by
  intro w hw
  rcases List.mem_map.mp hw with ⟨mval, hm, rfl⟩
  rcases List.mem_map.mp hm with ⟨k, hk, rfl⟩
  have hk99 : k < 99 := List.mem_range.mp hk
  have hkc : (k : ℚ) ≤ 98 := by exact_mod_cast Nat.le_of_lt_succ hk99
  have hk0 : (0 : ℚ) ≤ (k : ℚ) := Nat.cast_nonneg k
  have hub : 3/10 + ((k : ℚ) + 1) * (27/990) ≤ 3 := by nlinarith
  have hlb : (3 : ℚ)/10 < 3/10 + ((k : ℚ) + 1) * (27/990) := by nlinarith
  have h0m : (0 : ℚ) ≤ 3/10 + ((k : ℚ) + 1) * (27/990) := by linarith
  rw [fit_ex_log_post_eq _ h0m hub, fit_ex_log_post_eq (3/10) (by norm_num) (by norm_num)]
  exact fit_ex_log_post_anti (3/10) _ le_rfl hlb hub

/-- The MAP search over the `fit_ex` scenario lands on grid index 0. -/
theorem fit_ex_idx : fit_idx 1 fit_ex = 0 := by
  rw [fit_idx, log_post_list, mult_grid_eq, List.map_cons]
  exact np_argmax_head _ _ fit_ex_tail_lt

/-- The fitted multiplier of the `fit_ex` scenario is the grid edge `0.3`. -/
theorem fit_ex_multiplier : fit_multiplier 1 fit_ex = 3/10 := by
  rw [fit_multiplier, fit_ex_idx, mult_grid_eq]
  rfl

/-- `np_gradient` preserves list length. -/
theorem np_gradient_length (f : List ℚ) (h : ℚ) :
    (np_gradient f h).length = f.length := by
  simp [np_gradient]

/-- Pointwise description of `np_gradient`. -/
theorem np_gradient_getD (f : List ℚ) (h : ℚ) (i : ℕ) (hi : i < f.length) :
    (np_gradient f h).getD i 0
      = if i = 0 then (f.getD 1 0 - f.getD 0 0) / h
        else if i = f.length - 1 then (f.getD i 0 - f.getD (i - 1) 0) / h
        else (f.getD (i + 1) 0 - f.getD (i - 1) 0) / (2 * h) := by
  have hlen : i < (np_gradient f h).length := by
    rw [np_gradient_length]
    exact hi
  rw [List.getD_eq_getElem _ _ hlen]
  simp [np_gradient]

/-- The log-posterior list always has 100 entries. -/
theorem log_post_list_length (vd : ℚ) (f : FitInputs) :
    (log_post_list vd f).length = 100 := by
  simp [log_post_list, mult_grid]

/-- Pointwise description of the log-posterior list. -/
theorem log_post_list_getD (vd : ℚ) (f : FitInputs) (k : ℕ) (hk : k < 100) :
    (log_post_list vd f).getD k 0 = log_post_at vd f (mult_grid.getD k 0) := by
  have h1 : k < (log_post_list vd f).length := by
    rw [log_post_list_length]
    exact hk
  have h2 : k < mult_grid.length := by simpa [mult_grid] using hk
  rw [List.getD_eq_getElem _ _ h1, List.getD_eq_getElem _ _ h2]
  simp only [log_post_list, List.getElem_map]

/-- The `k`-th grid multiplier in closed form. -/
theorem mult_grid_getD (k : ℕ) (hk : k < 100) :
    mult_grid.getD k 0 = 3/10 + (k : ℚ) * (27/990) := by
  have h2 : k < mult_grid.length := by simpa [mult_grid] using hk
  rw [List.getD_eq_getElem _ _ h2]
  simp only [mult_grid, List.getElem_map, List.getElem_range]
  norm_num

/-- The discrete curvature of the `fit_ex` log-posterior at the selected
index 0 is non-negative (the posterior is convex at the left grid edge). -/
theorem fit_ex_d2_nonneg : 0 ≤ fit_d2_sel 1 fit_ex := by
  have hLlen : (log_post_list 1 fit_ex).length = 100 := log_post_list_length 1 fit_ex
  have hGlen : (np_gradient (log_post_list 1 fit_ex) mult_h).length = 100 := by
    rw [np_gradient_length, hLlen]
  rw [fit_d2_sel, fit_ex_idx, fit_d2]
  rw [np_gradient_getD _ _ 0 (by rw [np_gradient_length, hLlen]; norm_num)]
  rw [if_pos rfl]
  rw [np_gradient_getD _ _ 0 (by rw [hLlen]; norm_num),
      np_gradient_getD _ _ 1 (by rw [hLlen]; norm_num)]
  rw [if_pos rfl, if_neg (by norm_num), if_neg (by rw [hLlen]; norm_num)]
  rw [log_post_list_getD 1 fit_ex 0 (by norm_num),
      log_post_list_getD 1 fit_ex 1 (by norm_num),
      log_post_list_getD 1 fit_ex 2 (by norm_num)]
  rw [mult_grid_getD 0 (by norm_num), mult_grid_getD 1 (by norm_num),
      mult_grid_getD 2 (by norm_num)]
  rw [show (3:ℚ)/10 + (0:ℕ) * (27/990) = 3/10 by norm_num,
      show (3:ℚ)/10 + (1:ℕ) * (27/990) = 18/55 by norm_num,
      show (3:ℚ)/10 + (2:ℕ) * (27/990) = 39/110 by norm_num]
  rw [fit_ex_log_post_eq (3/10) (by norm_num) (by norm_num),
      fit_ex_log_post_eq (18/55) (by norm_num) (by norm_num),
      fit_ex_log_post_eq (39/110) (by norm_num) (by norm_num)]
  norm_num [fit_ex_log_post, mult_h]

/-- C6 counterexample: in the `fit_ex` scenario the discrete curvature at
the MAP index is non-negative and the fitted multiplier is `0.3`, yet the
stored standard deviation is the constant `0.2` — not `0.2 × multiplier =
0.06` as the claim states. -/
theorem fit_sd_counterexample :
    fit_multiplier 1 fit_ex = 3/10 ∧ 0 ≤ fit_d2_sel 1 fit_ex ∧
    fit_multiplier_sd 1 fit_ex = 0.2 ∧ (0.2 : ℝ) ≠ 0.2 * (3/10 : ℝ) := by
  refine ⟨fit_ex_multiplier, fit_ex_d2_nonneg, ?_, by norm_num⟩
  rw [fit_multiplier_sd, if_neg (not_lt.mpr fit_ex_d2_nonneg)]

/-- C6 as amended: the fit never fails — the fitted multiplier is always
drawn from the 100-point grid — and the stored standard deviation is
`sqrt(-1/d2)` when the discrete curvature at the selected index is
negative, and the constant fallback `0.2` (not scaled by the fitted
multiplier) when the curvature is zero or positive. -/
theorem fit_sd_fallback (vd : ℚ) (f : FitInputs) :
    (0 ≤ fit_d2_sel vd f → fit_multiplier_sd vd f = 0.2) ∧
    (fit_d2_sel vd f < 0 →
      fit_multiplier_sd vd f = Real.sqrt (-1 / (fit_d2_sel vd f : ℝ))) ∧
    fit_multiplier vd f ∈ mult_grid := by
  refine ⟨?_, ?_, ?_⟩
  · intro h
    rw [fit_multiplier_sd, if_neg (not_lt.mpr h)]
  · intro h
    rw [fit_multiplier_sd, if_pos h]
  · have hidx : fit_idx vd f < 100 := by
      rw [fit_idx, log_post_list, mult_grid_eq, List.map_cons]
      have := np_argmax_lt (log_post_at vd f (3/10))
        (((List.range 99).map (fun k : ℕ => 3/10 + ((k : ℚ) + 1) * (27/990))).map
          (log_post_at vd f))
      simpa using this
    have hlen : fit_idx vd f < mult_grid.length := by simpa [mult_grid] using hidx
    rw [fit_multiplier, List.getD_eq_getElem _ _ hlen]
    exact List.getElem_mem _

/-- Witness for C6's amended claim: in the `fit_ex` scenario (non-negative
curvature) the stored SD is the constant 0.2 and the multiplier comes from
the grid. -/
theorem fit_sd_fallback_witness :
    fit_multiplier_sd 1 fit_ex = 0.2 ∧ fit_multiplier 1 fit_ex ∈ mult_grid :=
  ⟨(fit_sd_fallback 1 fit_ex).1 fit_ex_d2_nonneg, (fit_sd_fallback 1 fit_ex).2.2⟩
